import Mathlib

/-!
Shallow embedding of `src/staticfiles/admin/js/multilang.js`, the multilingual
admin tab controller.  The DOM is modelled as explicit lists: the page's
fieldsets (the marked field groups), the tab headers and the tab content
panels built by `initMultilingualTabs`, and the single `localStorage` key
`selectedLangTab` as an `Option String`.  Content nodes are abstract: each
carries an id, whether it is a `.module` sub-element, and whether it contains
an error marker (`.errorlist` / `.error`).
-/

namespace Multilang

/-- A content node inside a fieldset: `isModule` models carrying the
`module` class, `hasError` models containing an `.errorlist`/`.error`
descendant, `nid` is an abstract identity. -/
structure Node where
  isModule : Bool
  hasError : Bool
  nid : Nat
deriving Repr, DecidableEq, Inhabited

/-- A fieldset on the page: its class list, its child content, and the
jQuery `hide()` flag. -/
structure FieldSet where
  classes : List String
  content : List Node
  hidden : Bool
deriving Repr, DecidableEq, Inhabited

/-- A built `.lang-tab-header` element: its `data-lang` attribute and
whether it carries the `active` class. -/
structure Header where
  lang : String
  active : Bool
deriving Repr, DecidableEq, Inhabited

/-- A built `.lang-tab-content` element: its `data-lang` attribute, the
content moved into it, and whether it carries the `active` class. -/
structure Panel where
  lang : String
  content : List Node
  active : Bool
deriving Repr, DecidableEq, Inhabited

/-- The observable page state: the document's fieldsets in order, the
headers and panels built by `initMultilingualTabs` (empty before it runs),
whether the `.lang-tabs` container has been inserted, and the
`localStorage` key `selectedLangTab` (`none` when absent). -/
structure PageState where
  fieldsets : List FieldSet
  headers : List Header
  panels : List Panel
  tabsInserted : Bool
  store : Option String
deriving Repr, DecidableEq

/-- One language descriptor from the `languages` configuration array. -/
structure LangDesc where
  code : String
  display : String
  cls : String
deriving Repr, DecidableEq

/-- `var languages = [{code:'en',...},{code:'mk',...}]` (lines 30-33). -/
def languages : List LangDesc :=
  [⟨"en", "English", "lang-en"⟩, ⟨"mk", "Македонски", "lang-mk"⟩]

/-- `saveSelectedTab(tabId)`: `localStorage.setItem('selectedLangTab', tabId)`
(lines 7-9). -/
def saveSelectedTab (tabId : String) (_store : Option String) : Option String :=
  some tabId

/-- `getSelectedTab()`: `localStorage.getItem('selectedLangTab') || 'en'`
(lines 12-14).  `getItem` yields `null` when the key is absent; JS `||`
falls through to `'en'` on `null` and on the falsy empty string. -/
def getSelectedTab (store : Option String) : String :=
  match store with
  | none => "en"
  | some s => if s = "" then "en" else s

/-- A fieldset matched by the `$('.lang-tab')` selector (line 18). -/
def isMarked (fs : FieldSet) : Bool :=
  fs.classes.contains "lang-tab"

/-- Indices of the marked fieldsets, in document order. -/
def markedIdxs (fss : List FieldSet) : List Nat :=
  (List.range fss.length).filter (fun i => isMarked (fss.getD i default))

/-- `className.startsWith('lang-')`, at the character level: the class
name's first five characters are `lang-`. -/
def strHasLangStart (c : String) : Bool :=
  c.data.take 5 == "lang-".data

/-- `className.replace('lang-','')` for a class name starting with
`lang-`: drop those five characters. -/
def stripLang (c : String) : String :=
  ⟨c.data.drop 5⟩

/-- The class-scanning test of the categorize loop (line 48):
`className.startsWith('lang-') && className !== 'lang-tab'` together with
the known-language check `langGroups[langCode]` (truthy only for `en`/`mk`),
where `langCode = className.replace('lang-','')` (line 49). -/
def classMatches (code : String) (c : String) : Bool :=
  strHasLangStart c && c != "lang-tab" && stripLang c == code

/-- `langGroups[code]` after the categorize loop (lines 42-55): for each
marked fieldset in document order, one entry (the fieldset's index) per
class in its class list matching `code`. -/
def langGroup (fss : List FieldSet) (code : String) : List Nat :=
  (markedIdxs fss).flatMap (fun i =>
    ((fss.getD i default).classes.filter (classMatches code)).map (fun _ => i))

/-- The per-fieldset move of the tab-contents loop (lines 72-75):
`var content = fieldset.find('.module').length > 0 ? fieldset.find('.module')
: fieldset.children(); tabContent.append(content); fieldset.hide();`  —
returns the moved nodes and the updated (emptied-of-moved, hidden)
fieldset. -/
def takeContent (fs : FieldSet) : List Node × FieldSet :=
  let modules := fs.content.filter (fun n => n.isModule)
  if modules.isEmpty then
    (fs.content, { fs with content := [], hidden := true })
  else
    (modules, { fs with content := fs.content.filter (fun n => !n.isModule), hidden := true })

/-- Process one group entry: move the fieldset at index `i` into the panel
being built, threading the page's fieldset list. -/
def moveOne (acc : List Node × List FieldSet) (i : Nat) : List Node × List FieldSet :=
  match acc.2.get? i with
  | some fs => (acc.1 ++ (takeContent fs).1, acc.2.set i (takeContent fs).2)
  | none => acc

/-- `langGroups[lang.code].forEach(...)` of lines 71-76: move every
fieldset of one language group into that language's panel. -/
def moveGroup (idxs : List Nat) (fss : List FieldSet) : List Node × List FieldSet :=
  idxs.foldl moveOne ([], fss)

/-- The tab-header creation loop (lines 58-63): one header per language
whose group is non-empty, in the order of `languages`. -/
def buildHeaders (fss : List FieldSet) : List Header :=
  languages.filterMap (fun l =>
    if langGroup fss l.code = [] then none else some ⟨l.code, false⟩)

/-- The tab-contents creation loop (lines 66-80): one panel per language
whose group is non-empty, moving the group's fieldsets' content, threading
the fieldset list.  `gs` is the precomputed `langGroups` association list. -/
def buildPanels (gs : List (String × List Nat)) (fss : List FieldSet) :
    List Panel × List FieldSet :=
  match gs with
  | [] => ([], fss)
  | (code, idxs) :: rest =>
    if idxs = [] then buildPanels rest fss
    else
      (⟨code, (moveGroup idxs fss).1, false⟩ ::
          (buildPanels rest (moveGroup idxs fss).2).1,
        (buildPanels rest (moveGroup idxs fss).2).2)

/-- `switchToTab(langCode)` (lines 103-111): remove `active` from every
header and panel, then add it to those whose `data-lang` equals
`langCode`. -/
def switchToTab (langCode : String) (st : PageState) : PageState :=
  { st with
    headers := st.headers.map (fun h => { h with active := h.lang == langCode }),
    panels := st.panels.map (fun p => { p with active := p.lang == langCode }) }

/-- The build phase of `initMultilingualTabs` (lines 24-86): build the
headers and panels from the page's fieldsets, move and hide the grouped
fieldsets, and insert the `.lang-tabs` container before the first marked
fieldset. -/
def buildTabs (st : PageState) : PageState :=
  let hs := buildHeaders st.fieldsets
  let gs := languages.map (fun l => (l.code, langGroup st.fieldsets l.code))
  let (ps, fss') := buildPanels gs st.fieldsets
  { st with fieldsets := fss', headers := hs, panels := ps, tabsInserted := true }

/-- `initMultilingualTabs()` (lines 16-101): bail out when no fieldset
carries `lang-tab`; otherwise run the build phase, then activate the
persisted tab (lines 96-100), falling back to `'en'` when no built header
matches it. -/
def initMultilingualTabs (st : PageState) : PageState :=
  if markedIdxs st.fieldsets = [] then st
  else
    let st1 := buildTabs st
    let selectedTab := getSelectedTab st.store
    let selectedTab :=
      if (st1.headers.filter (fun h => h.lang == selectedTab)).isEmpty then "en"
      else selectedTab
    switchToTab selectedTab st1

/-- The header click handler (lines 89-93): `switchToTab(selectedLang);
saveSelectedTab(selectedLang);`. -/
def clickHeader (selectedLang : String) (st : PageState) : PageState :=
  let st1 := switchToTab selectedLang st
  { st1 with store := saveSelectedTab selectedLang st1.store }

/-- The `$(document).keydown` handler (lines 129-142): on Ctrl/Meta plus
key code 49 (digit 1) or 50 (digit 2), prevent default and switch to `en`
resp. `mk`; otherwise do nothing.  Returns the new state and whether
`preventDefault` was called. -/
def keydown (ctrlKey metaKey : Bool) (which : Nat) (st : PageState) :
    PageState × Bool :=
  if ctrlKey || metaKey then
    if which = 49 then (switchToTab "en" st, true)
    else if which = 50 then (switchToTab "mk" st, true)
    else (st, false)
  else (st, false)

/-- `tabContent.find('.errorlist').length > 0 || tabContent.find('.error').length > 0`
(line 117). -/
def panelHasError (p : Panel) : Bool :=
  p.content.any (fun n => n.hasError)

/-- `showTabWithErrors()` (lines 114-123): walk the panels in construction
order, and on the first one containing an error marker switch to its
language and stop (`return false` breaks the jQuery `each` loop). -/
def showTabWithErrors (st : PageState) : PageState :=
  match st.panels.find? panelHasError with
  | some p => switchToTab p.lang st
  | none => st

/-! ### Claim C1: the keyboard shortcut does not persist the selection -/

/-- C1 counterexample: in a state where the `mk` header and panel are built
and `'en'` is persisted, pressing Ctrl+digit-2 activates the `mk` header
but the persisted selection key still holds `'en'`, not `'mk'` as the
claim states. -/
theorem keydown_digit2_counterexample :
    ((keydown true false 50
        ⟨[], [⟨"mk", false⟩], [⟨"mk", [], false⟩], true, some "en"⟩).1).store
      ≠ some "mk" ∧
    ((keydown true false 50
        ⟨[], [⟨"mk", false⟩], [⟨"mk", [], false⟩], true, some "en"⟩).1).headers
      = [⟨"mk", true⟩] := by
  decide

/-- C1 (amended): triggering the global key handler with modifier+digit-2
prevents the default action and activates exactly the `mk` header and
panel, but leaves the persisted selection key unchanged, regardless of the
current active tab or previously persisted value. -/
theorem keydown_digit2_activates_mk (ctrl mt : Bool) (st : PageState)
    (h : (ctrl || mt) = true) :
    (keydown ctrl mt 50 st).2 = true ∧
    ((keydown ctrl mt 50 st).1).store = st.store ∧
    ((keydown ctrl mt 50 st).1).headers
      = st.headers.map (fun hd => { hd with active := hd.lang == "mk" }) ∧
    ((keydown ctrl mt 50 st).1).panels
      = st.panels.map (fun p => { p with active := p.lang == "mk" }) := by
  simp [keydown, h, switchToTab]

/-- C1 witness: the amended statement at a concrete state. -/
theorem keydown_digit2_activates_mk_witness :
    (keydown true false 50
        (⟨[], [⟨"en", true⟩, ⟨"mk", false⟩], [⟨"en", [], true⟩], true, some "en"⟩ :
          PageState)).2 = true ∧
    ((keydown true false 50
        (⟨[], [⟨"en", true⟩, ⟨"mk", false⟩], [⟨"en", [], true⟩], true, some "en"⟩ :
          PageState)).1).store = some "en" ∧
    ((keydown true false 50
        (⟨[], [⟨"en", true⟩, ⟨"mk", false⟩], [⟨"en", [], true⟩], true, some "en"⟩ :
          PageState)).1).headers
      = ([⟨"en", true⟩, ⟨"mk", false⟩] : List Header).map
          (fun hd => { hd with active := hd.lang == "mk" }) ∧
    ((keydown true false 50
        (⟨[], [⟨"en", true⟩, ⟨"mk", false⟩], [⟨"en", [], true⟩], true, some "en"⟩ :
          PageState)).1).panels
      = ([⟨"en", [], true⟩] : List Panel).map
          (fun p => { p with active := p.lang == "mk" }) :=
  keydown_digit2_activates_mk true false _ (by decide)

/-! ### Claim C6: storage round-trip -/

/-- C6 counterexample: persisting the empty string and reading back yields
`'en'`, not the persisted string, because the JS `||` default also fires
on the falsy empty string. -/
theorem roundtrip_counterexample :
    getSelectedTab (saveSelectedTab "" none) = "en" ∧ ("en" : String) ≠ "" := by
  decide

/-- C6 (amended): for every non-empty language code string `s`,
`persistSelection(s)` followed by `loadSelection()` returns `s`; when
nothing was ever persisted, `loadSelection()` returns `'en'`. -/
theorem roundtrip_nonempty (s : String) (store : Option String) (h : s ≠ "") :
    getSelectedTab (saveSelectedTab s store) = s ∧ getSelectedTab none = "en" := by
  refine ⟨?_, rfl⟩
  simp [getSelectedTab, saveSelectedTab, h]

/-- C6 witness: the round-trip at `'mk'`. -/
theorem roundtrip_nonempty_witness :
    getSelectedTab (saveSelectedTab "mk" none) = "mk" ∧ getSelectedTab none = "en" :=
  roundtrip_nonempty "mk" none (by decide)

/-! ### Claim C7: no-op on pages without marked field groups -/

/-- C7: when no fieldset carries the `lang-tab` marker class,
`initMultilingualTabs` returns the page state entirely unchanged: nothing
is inserted, nothing is hidden, the store is untouched — the guard runs
before any mutation. -/
theorem init_noop_of_no_marked (st : PageState)
    (h : markedIdxs st.fieldsets = []) :
    initMultilingualTabs st = st := by
  simp [initMultilingualTabs, h]

/-- C7 witness: a page with one unmarked fieldset is left unchanged. -/
theorem init_noop_of_no_marked_witness :
    initMultilingualTabs
        (⟨[⟨["module"], [⟨true, false, 0⟩], false⟩], [], [], false, none⟩ : PageState)
      = (⟨[⟨["module"], [⟨true, false, 0⟩], false⟩], [], [], false, none⟩ : PageState) :=
  init_noop_of_no_marked _ (by decide)

/-! ### Claim C8: switchToTab is idempotent -/

/-- C8: calling `switchToTab` twice in succession with the same code
yields exactly the state of calling it once — in particular the same
single active header/panel and no duplicate active designations. -/
theorem switchToTab_idempotent (code : String) (st : PageState) :
    switchToTab code (switchToTab code st) = switchToTab code st := by
  have hh : ((fun (h : Header) => { h with active := h.lang == code }) ∘
      (fun (h : Header) => { h with active := h.lang == code }))
      = fun (h : Header) => { h with active := h.lang == code } := by
    funext h; rfl
  have hp : ((fun (p : Panel) => { p with active := p.lang == code }) ∘
      (fun (p : Panel) => { p with active := p.lang == code }))
      = fun (p : Panel) => { p with active := p.lang == code } := by
    funext p; rfl
  simp [switchToTab, List.map_map, hh, hp]

/-! ### Claim C10: the error scan never writes the persisted selection -/

/-- C10: `showTabWithErrors` leaves the persisted selection key exactly as
it was, whether or not it activates a panel. -/
theorem showTabWithErrors_store (st : PageState) :
    (showTabWithErrors st).store = st.store := by
  unfold showTabWithErrors
  cases st.panels.find? panelHasError <;> simp [switchToTab]

/-! ### Helper lemmas -/

/-- Over a list whose `f`-projections are distinct, at most one element
projects to any given `code`. -/
theorem aux_countP_le_one {α : Type} (f : α → String) (code : String) :
    ∀ l : List α, (l.map f).Nodup → l.countP (fun a => f a == code) ≤ 1 := by
  intro l h
  induction l with
  | nil => simp
  | cons a t ih =>
    rw [List.map_cons, List.nodup_cons] at h
    rw [List.countP_cons]
    by_cases hc : (f a == code) = true
    · have hz : t.countP (fun b => f b == code) = 0 := by
        rw [List.countP_eq_zero]
        intro b hb hbc
        refine h.1 (List.mem_map.mpr ⟨b, hb, ?_⟩)
        rw [beq_iff_eq] at hc hbc
        rw [hbc, hc]
      simp [hz, hc]
    · simp only [hc, if_false]
      exact Nat.le_trans (by simp) (ih h.2)

/-- When `code` is not among the `f`-projections, no element matches it. -/
theorem aux_countP_zero {α : Type} (f : α → String) (code : String)
    (l : List α) (h : code ∉ l.map f) : l.countP (fun a => f a == code) = 0 := by
  rw [List.countP_eq_zero]
  intro a ha hac
  refine h (List.mem_map.mpr ⟨a, ha, ?_⟩)
  rw [beq_iff_eq] at hac
  exact hac

/-- `find?` on a split list whose first part is all-negative returns the
splitting element when it is positive. -/
theorem aux_find?_append_first {α : Type} (p : α → Bool) :
    ∀ (pre : List α) (a : α) (post : List α),
      (∀ x ∈ pre, p x = false) → p a = true →
      List.find? p (pre ++ a :: post) = some a := by
  intro pre
  induction pre with
  | nil =>
    intro a post _ hp
    simpa using List.find?_cons_of_pos _ hp
  | cons x t ih =>
    intro a post h hp
    rw [List.cons_append, List.find?_cons_of_neg]
    · exact ih a post (fun y hy => h y (List.mem_cons_of_mem _ hy)) hp
    · simp [h x (List.mem_cons_self _ _)]

/-- Indexing a split list at the length of its first part yields the
splitting element. -/
theorem aux_get?_append_length {α : Type} (pre : List α) (a : α) (post : List α) :
    (pre ++ a :: post).get? pre.length = some a := by
  rw [List.get?_append_right (le_refl _)]
  simp

/-! ### Claim C4: switchToTab clears then marks only the matching tab -/

/-- C4: `switchToTab code` marks a header/panel active exactly when its
language equals `code`; with the built tabs' languages distinct, at most
one header and at most one panel end up active, and when no header/panel
matches `code` the call completes leaving none active. -/
theorem switchToTab_active (code : String) (st : PageState)
    (hh : (st.headers.map Header.lang).Nodup)
    (hp : (st.panels.map Panel.lang).Nodup) :
    (∀ h ∈ (switchToTab code st).headers, h.active = (h.lang == code)) ∧
    (∀ p ∈ (switchToTab code st).panels, p.active = (p.lang == code)) ∧
    (switchToTab code st).headers.countP (fun h => h.active) ≤ 1 ∧
    (switchToTab code st).panels.countP (fun p => p.active) ≤ 1 ∧
    (code ∉ st.headers.map Header.lang →
      (switchToTab code st).headers.countP (fun h => h.active) = 0) ∧
    (code ∉ st.panels.map Panel.lang →
      (switchToTab code st).panels.countP (fun p => p.active) = 0) := by
  refine ⟨?_, ?_, ?_, ?_, ?_, ?_⟩
  · intro h hm
    rw [switchToTab] at hm
    simp only [List.mem_map] at hm
    obtain ⟨h0, _, rfl⟩ := hm
    rfl
  · intro p pm
    rw [switchToTab] at pm
    simp only [List.mem_map] at pm
    obtain ⟨p0, _, rfl⟩ := pm
    rfl
  · show (st.headers.map (fun h => { h with active := h.lang == code })).countP
        (fun h => h.active) ≤ 1
    rw [List.countP_map]
    exact aux_countP_le_one Header.lang code st.headers hh
  · show (st.panels.map (fun p => { p with active := p.lang == code })).countP
        (fun p => p.active) ≤ 1
    rw [List.countP_map]
    exact aux_countP_le_one Panel.lang code st.panels hp
  · intro hn
    show (st.headers.map (fun h => { h with active := h.lang == code })).countP
        (fun h => h.active) = 0
    rw [List.countP_map]
    exact aux_countP_zero Header.lang code st.headers hn
  · intro hn
    show (st.panels.map (fun p => { p with active := p.lang == code })).countP
        (fun p => p.active) = 0
    rw [List.countP_map]
    exact aux_countP_zero Panel.lang code st.panels hn

/-- C4 witness: switching to the unmatched code `'fr'` on a page with one
active `en` header/panel leaves nothing active. -/
theorem switchToTab_active_witness :
    (∀ h ∈ (switchToTab "fr"
        (⟨[], [⟨"en", true⟩], [⟨"en", [], true⟩], true, none⟩ : PageState)).headers,
      h.active = (h.lang == "fr")) ∧
    (∀ p ∈ (switchToTab "fr"
        (⟨[], [⟨"en", true⟩], [⟨"en", [], true⟩], true, none⟩ : PageState)).panels,
      p.active = (p.lang == "fr")) ∧
    (switchToTab "fr"
        (⟨[], [⟨"en", true⟩], [⟨"en", [], true⟩], true, none⟩ : PageState)).headers.countP
      (fun h => h.active) ≤ 1 ∧
    (switchToTab "fr"
        (⟨[], [⟨"en", true⟩], [⟨"en", [], true⟩], true, none⟩ : PageState)).panels.countP
      (fun p => p.active) ≤ 1 ∧
    ("fr" ∉ (([⟨"en", true⟩] : List Header).map Header.lang) →
      (switchToTab "fr"
        (⟨[], [⟨"en", true⟩], [⟨"en", [], true⟩], true, none⟩ : PageState)).headers.countP
        (fun h => h.active) = 0) ∧
    ("fr" ∉ (([⟨"en", [], true⟩] : List Panel).map Panel.lang) →
      (switchToTab "fr"
        (⟨[], [⟨"en", true⟩], [⟨"en", [], true⟩], true, none⟩ : PageState)).panels.countP
        (fun p => p.active) = 0) :=
  switchToTab_active "fr" _ (by decide) (by decide)

/-! ### Claim C5: the error scan activates the first panel with errors -/

/-- C5: `showTabWithErrors` inspects the panels in construction order:
when the panels split as `pre ++ p :: post` with no error in `pre` and an
error in `p`, it switches to `p`'s language (so panels after `p` are never
consulted) and `p` ends active at its position; when no panel has an
error, the state is left entirely unchanged. -/
theorem showTabWithErrors_first (st : PageState) :
    (∀ pre p post, st.panels = pre ++ p :: post →
      (∀ q ∈ pre, panelHasError q = false) → panelHasError p = true →
      showTabWithErrors st = switchToTab p.lang st ∧
      (showTabWithErrors st).panels.get? pre.length
        = some { p with active := true }) ∧
    ((∀ q ∈ st.panels, panelHasError q = false) → showTabWithErrors st = st) := by
  constructor
  · intro pre p post hsplit hpre hperr
    have hfind : st.panels.find? panelHasError = some p := by
      rw [hsplit]
      exact aux_find?_append_first panelHasError pre p post hpre hperr
    have heq : showTabWithErrors st = switchToTab p.lang st := by
      unfold showTabWithErrors
      rw [hfind]
    refine ⟨heq, ?_⟩
    rw [heq]
    simp only [switchToTab]
    rw [List.get?_map, hsplit, aux_get?_append_length]
    simp
  · intro hall
    unfold showTabWithErrors
    have hnone : st.panels.find? panelHasError = none := by
      rw [List.find?_eq_none]
      intro x hx
      simp [hall x hx]
    rw [hnone]

/-- C5 witness: with an error-free `en` panel first and an erroneous `mk`
panel second, the scan switches to `mk` and marks that panel active. -/
theorem showTabWithErrors_first_witness :
    showTabWithErrors
        (⟨[], [⟨"en", true⟩, ⟨"mk", false⟩],
          [⟨"en", [⟨false, false, 0⟩], true⟩, ⟨"mk", [⟨false, true, 1⟩], false⟩],
          true, some "en"⟩ : PageState)
      = switchToTab "mk"
        (⟨[], [⟨"en", true⟩, ⟨"mk", false⟩],
          [⟨"en", [⟨false, false, 0⟩], true⟩, ⟨"mk", [⟨false, true, 1⟩], false⟩],
          true, some "en"⟩ : PageState) ∧
    (showTabWithErrors
        (⟨[], [⟨"en", true⟩, ⟨"mk", false⟩],
          [⟨"en", [⟨false, false, 0⟩], true⟩, ⟨"mk", [⟨false, true, 1⟩], false⟩],
          true, some "en"⟩ : PageState)).panels.get? 1
      = some ⟨"mk", [⟨false, true, 1⟩], true⟩ :=
  (showTabWithErrors_first _).1
    [⟨"en", [⟨false, false, 0⟩], true⟩] ⟨"mk", [⟨false, true, 1⟩], false⟩ []
    rfl (by decide) (by decide)

/-! ### Helper lemmas for the build phase -/

/-- Writing at a valid index is observed by `getD` at that index. -/
theorem aux_getD_set_self {α : Type} (d : α) :
    ∀ (l : List α) (i : Nat) (a : α), i < l.length → (l.set i a).getD i d = a := by
  intro l
  induction l with
  | nil =>
    intro i a h
    exact absurd h (Nat.not_lt_zero i)
  | cons x t ih =>
    intro i a h
    cases i with
    | zero => rfl
    | succ n => exact ih n a (Nat.lt_of_succ_lt_succ h)

/-- Writing at one index leaves `getD` at any other index unchanged. -/
theorem aux_getD_set_ne {α : Type} (d : α) :
    ∀ (l : List α) (i j : Nat) (a : α), i ≠ j →
      (l.set i a).getD j d = l.getD j d := by
  intro l
  induction l with
  | nil => intro i j a _; rfl
  | cons x t ih =>
    intro i j a hij
    cases i with
    | zero =>
      cases j with
      | zero => exact absurd rfl hij
      | succ m => rfl
    | succ n =>
      cases j with
      | zero => rfl
      | succ m => exact ih n m a (fun he => hij (congrArg Nat.succ he))

/-- `getD` evaluates a successful `get?`. -/
theorem aux_getD_of_get? {α : Type} (d : α) (l : List α) (i : Nat) (a : α)
    (h : l.get? i = some a) : l.getD i d = a := by
  rw [List.getD_eq_get?, h]
  rfl

/-- `takeContent` always hides the fieldset shell. -/
theorem aux_takeContent_hidden (fs : FieldSet) :
    ((takeContent fs).2).hidden = true := by
  simp only [takeContent]
  split <;> rfl

/-- `takeContent` never changes the fieldset's class list. -/
theorem aux_takeContent_classes (fs : FieldSet) :
    ((takeContent fs).2).classes = fs.classes := by
  simp only [takeContent]
  split <;> rfl

/-- `moveOne` preserves the page length. -/
theorem aux_moveOne_length (acc : List Node × List FieldSet) (i : Nat) :
    (moveOne acc i).2.length = acc.2.length := by
  unfold moveOne
  cases acc.2.get? i <;> simp [List.length_set]

/-- A successful lookup bounds the index. -/
theorem aux_get?_lt {α : Type} (l : List α) (i : Nat) (a : α)
    (h : l.get? i = some a) : i < l.length := by
  by_contra hc
  rw [List.get?_eq_none.mpr (Nat.le_of_not_lt hc)] at h
  exact Option.noConfusion h

/-- `moveOne` hides the fieldset at the index it processes. -/
theorem aux_moveOne_hidden_set (acc : List Node × List FieldSet) (i : Nat)
    (d : FieldSet) (h : i < acc.2.length) :
    ((moveOne acc i).2.getD i d).hidden = true := by
  unfold moveOne
  cases hacc : acc.2.get? i with
  | none =>
    rw [List.get?_eq_none] at hacc
    exact absurd h (Nat.not_lt_of_le hacc)
  | some fs =>
    dsimp only
    rw [aux_getD_set_self d _ i _ h]
    exact aux_takeContent_hidden fs

/-- `moveOne` never un-hides a fieldset. -/
theorem aux_moveOne_hidden_mono (acc : List Node × List FieldSet) (i j : Nat)
    (d : FieldSet) (h : (acc.2.getD j d).hidden = true) :
    ((moveOne acc i).2.getD j d).hidden = true := by
  unfold moveOne
  cases hacc : acc.2.get? i with
  | none => exact h
  | some fs =>
    dsimp only
    by_cases hij : i = j
    · subst hij
      rw [aux_getD_set_self d _ i _ (aux_get?_lt _ i fs hacc)]
      exact aux_takeContent_hidden fs
    · rw [aux_getD_set_ne d _ i j _ hij]
      exact h

/-- `moveOne` never changes a fieldset's class list. -/
theorem aux_moveOne_classes (acc : List Node × List FieldSet) (i j : Nat)
    (d : FieldSet) :
    ((moveOne acc i).2.getD j d).classes = (acc.2.getD j d).classes := by
  unfold moveOne
  cases hacc : acc.2.get? i with
  | none => rfl
  | some fs =>
    dsimp only
    by_cases hij : i = j
    · subst hij
      rw [aux_getD_set_self d _ i _ (aux_get?_lt _ i fs hacc),
        aux_takeContent_classes, aux_getD_of_get? d _ i fs hacc]
    · rw [aux_getD_set_ne d _ i j _ hij]

/-- `moveOne` leaves fieldsets at other indices untouched. -/
theorem aux_moveOne_untouched (acc : List Node × List FieldSet) (i j : Nat)
    (d : FieldSet) (hij : i ≠ j) :
    (moveOne acc i).2.getD j d = acc.2.getD j d := by
  unfold moveOne
  cases acc.2.get? i with
  | none => rfl
  | some fs =>
    dsimp only
    rw [aux_getD_set_ne d _ i j _ hij]

/-- `moveGroup` preserves the page length. -/
theorem aux_foldl_moveOne_length :
    ∀ (idxs : List Nat) (acc : List Node × List FieldSet),
      ((idxs.foldl moveOne acc).2).length = acc.2.length := by
  intro idxs
  induction idxs with
  | nil => intro acc; rfl
  | cons i t ih =>
    intro acc
    rw [List.foldl_cons, ih]
    exact aux_moveOne_length acc i

/-- `moveGroup` never changes a fieldset's class list. -/
theorem aux_foldl_moveOne_classes :
    ∀ (idxs : List Nat) (acc : List Node × List FieldSet) (j : Nat) (d : FieldSet),
      (((idxs.foldl moveOne acc).2).getD j d).classes = (acc.2.getD j d).classes := by
  intro idxs
  induction idxs with
  | nil => intro acc j d; rfl
  | cons i t ih =>
    intro acc j d
    rw [List.foldl_cons, ih]
    exact aux_moveOne_classes acc i j d

/-- `moveGroup` never un-hides a fieldset. -/
theorem aux_foldl_moveOne_hidden_mono :
    ∀ (idxs : List Nat) (acc : List Node × List FieldSet) (j : Nat) (d : FieldSet),
      (acc.2.getD j d).hidden = true →
      (((idxs.foldl moveOne acc).2).getD j d).hidden = true := by
  intro idxs
  induction idxs with
  | nil => intro acc j d h; exact h
  | cons i t ih =>
    intro acc j d h
    rw [List.foldl_cons]
    exact ih _ j d (aux_moveOne_hidden_mono acc i j d h)

/-- `moveGroup` hides every fieldset whose index is in the group. -/
theorem aux_foldl_moveOne_hidden_mem :
    ∀ (idxs : List Nat) (acc : List Node × List FieldSet) (j : Nat) (d : FieldSet),
      j ∈ idxs → j < acc.2.length →
      (((idxs.foldl moveOne acc).2).getD j d).hidden = true := by
  intro idxs
  induction idxs with
  | nil => intro acc j d h _; exact absurd h (List.not_mem_nil j)
  | cons i t ih =>
    intro acc j d hmem hlen
    rw [List.foldl_cons]
    rcases List.mem_cons.mp hmem with rfl | hm
    · exact aux_foldl_moveOne_hidden_mono t _ j d (aux_moveOne_hidden_set acc j d hlen)
    · refine ih (moveOne acc i) j d hm ?_
      rw [aux_moveOne_length]
      exact hlen

/-- `moveGroup` leaves fieldsets outside the group untouched. -/
theorem aux_foldl_moveOne_untouched :
    ∀ (idxs : List Nat) (acc : List Node × List FieldSet) (j : Nat) (d : FieldSet),
      j ∉ idxs → ((idxs.foldl moveOne acc).2).getD j d = acc.2.getD j d := by
  intro idxs
  induction idxs with
  | nil => intro acc j d _; rfl
  | cons i t ih =>
    intro acc j d h
    rw [List.foldl_cons, ih _ j d (fun hm => h (List.mem_cons_of_mem i hm))]
    exact aux_moveOne_untouched acc i j d (fun he => h (he ▸ List.mem_cons_self i t))

/-- `buildPanels` preserves the page length. -/
theorem aux_buildPanels_length :
    ∀ (gs : List (String × List Nat)) (fss : List FieldSet),
      ((buildPanels gs fss).2).length = fss.length := by
  intro gs
  induction gs with
  | nil => intro fss; rfl
  | cons g rest ih =>
    intro fss
    obtain ⟨code, idxs⟩ := g
    by_cases h : idxs = []
    · simp [buildPanels, h, ih]
    · simp only [buildPanels, h, if_neg, ite_false]
      rw [ih, moveGroup, aux_foldl_moveOne_length]

/-- `buildPanels` never changes a fieldset's class list. -/
theorem aux_buildPanels_classes :
    ∀ (gs : List (String × List Nat)) (fss : List FieldSet) (j : Nat) (d : FieldSet),
      (((buildPanels gs fss).2).getD j d).classes = (fss.getD j d).classes := by
  intro gs
  induction gs with
  | nil => intro fss j d; rfl
  | cons g rest ih =>
    intro fss j d
    obtain ⟨code, idxs⟩ := g
    by_cases h : idxs = []
    · simp only [buildPanels, h, ite_true]
      exact ih fss j d
    · simp only [buildPanels, h, ite_false]
      rw [ih, moveGroup, aux_foldl_moveOne_classes]

/-- `buildPanels` never un-hides a fieldset. -/
theorem aux_buildPanels_hidden_mono :
    ∀ (gs : List (String × List Nat)) (fss : List FieldSet) (j : Nat) (d : FieldSet),
      (fss.getD j d).hidden = true →
      (((buildPanels gs fss).2).getD j d).hidden = true := by
  intro gs
  induction gs with
  | nil => intro fss j d h; exact h
  | cons g rest ih =>
    intro fss j d h
    obtain ⟨code, idxs⟩ := g
    by_cases hn : idxs = []
    · simp only [buildPanels, hn, ite_true]
      exact ih fss j d h
    · simp only [buildPanels, hn, ite_false]
      exact ih _ j d (aux_foldl_moveOne_hidden_mono idxs _ j d h)

/-- `buildPanels` hides every fieldset that belongs to some group. -/
theorem aux_buildPanels_hidden_mem :
    ∀ (gs : List (String × List Nat)) (fss : List FieldSet) (j : Nat) (d : FieldSet)
      (code : String) (idxs : List Nat),
      (code, idxs) ∈ gs → j ∈ idxs → j < fss.length →
      (((buildPanels gs fss).2).getD j d).hidden = true := by
  intro gs
  induction gs with
  | nil =>
    intro fss j d code idxs h _ _
    exact absurd h (List.not_mem_nil _)
  | cons g rest ih =>
    intro fss j d code idxs hg hj hlen
    obtain ⟨c0, i0⟩ := g
    rcases List.mem_cons.mp hg with heq | hm
    · have hi0 : idxs = i0 := congrArg Prod.snd heq
      subst hi0
      have hn : idxs ≠ [] := fun he => absurd (he ▸ hj) (List.not_mem_nil j)
      simp only [buildPanels, hn, ite_false]
      exact aux_buildPanels_hidden_mono rest _ j d
        (aux_foldl_moveOne_hidden_mem idxs _ j d hj hlen)
    · by_cases hn : i0 = []
      · simp only [buildPanels, hn, ite_true]
        exact ih fss j d code idxs hm hj hlen
      · simp only [buildPanels, hn, ite_false]
        refine ih _ j d code idxs hm hj ?_
        rw [moveGroup, aux_foldl_moveOne_length]
        exact hlen

/-- `buildPanels` leaves a fieldset belonging to no group untouched. -/
theorem aux_buildPanels_untouched :
    ∀ (gs : List (String × List Nat)) (fss : List FieldSet) (j : Nat) (d : FieldSet),
      (∀ code idxs, (code, idxs) ∈ gs → j ∉ idxs) →
      ((buildPanels gs fss).2).getD j d = fss.getD j d := by
  intro gs
  induction gs with
  | nil => intro fss j d _; rfl
  | cons g rest ih =>
    intro fss j d h
    obtain ⟨c0, i0⟩ := g
    by_cases hn : i0 = []
    · simp only [buildPanels, hn, ite_true]
      exact ih fss j d (fun code idxs hm => h code idxs (List.mem_cons_of_mem _ hm))
    · simp only [buildPanels, hn, ite_false]
      rw [ih _ j d (fun code idxs hm => h code idxs (List.mem_cons_of_mem _ hm)),
        moveGroup, aux_foldl_moveOne_untouched]
      exact h c0 i0 (List.mem_cons_self _ _)

/-- The built panels carry exactly the codes of the non-empty groups, in
order. -/
theorem aux_buildPanels_langs :
    ∀ (gs : List (String × List Nat)) (fss : List FieldSet),
      ((buildPanels gs fss).1).map Panel.lang
        = gs.filterMap (fun g => if g.2 = [] then none else some g.1) := by
  intro gs
  induction gs with
  | nil => intro fss; rfl
  | cons g rest ih =>
    intro fss
    obtain ⟨c0, i0⟩ := g
    by_cases hn : i0 = []
    · simp [buildPanels, hn, ih]
    · simp [buildPanels, hn, ih]

/-- Membership in a marked-index list bounds the index. -/
theorem aux_markedIdxs_lt (fss : List FieldSet) (i : Nat)
    (h : i ∈ markedIdxs fss) : i < fss.length := by
  unfold markedIdxs at h
  exact List.mem_range.mp (List.mem_filter.mp h).1

/-- Unpacking membership in a language group: the index is marked and one
of its classes matches the code. -/
theorem aux_mem_langGroup (fss : List FieldSet) (code : String) (i : Nat)
    (h : i ∈ langGroup fss code) :
    i ∈ markedIdxs fss ∧
    ∃ c ∈ (fss.getD i default).classes, classMatches code c = true := by
  unfold langGroup at h
  obtain ⟨j, hj, hmem⟩ := List.mem_flatMap.mp h
  obtain ⟨c, hc, hji⟩ := List.mem_map.mp hmem
  obtain ⟨hcls, hmatch⟩ := List.mem_filter.mp hc
  subst hji
  exact ⟨hj, c, hcls, hmatch⟩

/-- Packing membership in a language group from a matching class. -/
theorem aux_langGroup_intro (fss : List FieldSet) (code : String) (i : Nat)
    (hm : i ∈ markedIdxs fss) (c : String)
    (hc : c ∈ (fss.getD i default).classes) (hmatch : classMatches code c = true) :
    i ∈ langGroup fss code := by
  unfold langGroup
  exact List.mem_flatMap.mpr
    ⟨i, hm, List.mem_map.mpr ⟨c, List.mem_filter.mpr ⟨hc, hmatch⟩, rfl⟩⟩

/-- A non-empty language group needs at least one marked fieldset. -/
theorem aux_langGroup_marked (fss : List FieldSet) (code : String)
    (h : langGroup fss code ≠ []) : markedIdxs fss ≠ [] := by
  obtain ⟨i, hi⟩ := List.exists_mem_of_ne_nil _ h
  intro hnil
  exact absurd (hnil ▸ (aux_mem_langGroup fss code i hi).1) (List.not_mem_nil i)

/-- With no marked fieldset every language group is empty. -/
theorem aux_langGroup_of_marked_nil (fss : List FieldSet) (code : String)
    (h : markedIdxs fss = []) : langGroup fss code = [] := by
  unfold langGroup
  rw [h]
  rfl

/-- The built headers carry exactly the known codes with a non-empty
group, in the fixed configuration order. -/
theorem aux_buildHeaders_langs (fss : List FieldSet) :
    (buildHeaders fss).map Header.lang
      = (["en", "mk"].filter (fun c => !(langGroup fss c).isEmpty)) := by
  unfold buildHeaders languages
  by_cases he : langGroup fss "en" = [] <;> by_cases hm : langGroup fss "mk" = [] <;>
    simp [he, hm, List.filter_cons, List.isEmpty_iff]

/-- When some known group is non-empty, the built header strip is
non-empty. -/
theorem aux_buildHeaders_ne_nil (fss : List FieldSet)
    (h : langGroup fss "en" ≠ [] ∨ langGroup fss "mk" ≠ []) :
    buildHeaders fss ≠ [] := by
  unfold buildHeaders languages
  rcases h with he | hm
  · simp [he]
  · by_cases he : langGroup fss "en" = [] <;> simp [he, hm]

/-- The `langGroups` association list read off the fixed `languages`
configuration. -/
theorem aux_gs_eq (fss : List FieldSet) :
    languages.map (fun l => (l.code, langGroup fss l.code))
      = [("en", langGroup fss "en"), ("mk", langGroup fss "mk")] := rfl

/-- Projections of the build phase. -/
theorem aux_buildTabs_headers (st : PageState) :
    (buildTabs st).headers = buildHeaders st.fieldsets := rfl

theorem aux_buildTabs_panels (st : PageState) :
    (buildTabs st).panels
      = (buildPanels [("en", langGroup st.fieldsets "en"),
          ("mk", langGroup st.fieldsets "mk")] st.fieldsets).1 := rfl

theorem aux_buildTabs_fieldsets (st : PageState) :
    (buildTabs st).fieldsets
      = (buildPanels [("en", langGroup st.fieldsets "en"),
          ("mk", langGroup st.fieldsets "mk")] st.fieldsets).2 := rfl

theorem aux_buildTabs_store (st : PageState) :
    (buildTabs st).store = st.store := rfl

/-- Projections of `switchToTab`. -/
theorem aux_switchToTab_fieldsets (code : String) (st : PageState) :
    (switchToTab code st).fieldsets = st.fieldsets := rfl

theorem aux_switchToTab_headers (code : String) (st : PageState) :
    (switchToTab code st).headers
      = st.headers.map (fun (h : Header) => { h with active := h.lang == code }) := rfl

theorem aux_switchToTab_panels (code : String) (st : PageState) :
    (switchToTab code st).panels
      = st.panels.map (fun (p : Panel) => { p with active := p.lang == code }) := rfl

/-- `switchToTab` preserves header languages. -/
theorem aux_switchToTab_header_langs (code : String) (st : PageState) :
    ((switchToTab code st).headers).map Header.lang
      = st.headers.map Header.lang := by
  rw [aux_switchToTab_headers, List.map_map]
  rfl

/-- `switchToTab` preserves panel languages. -/
theorem aux_switchToTab_panel_langs (code : String) (st : PageState) :
    ((switchToTab code st).panels).map Panel.lang
      = st.panels.map Panel.lang := by
  rw [aux_switchToTab_panels, List.map_map]
  rfl

/-- The no-marked-fieldsets branch of `initMultilingualTabs`. -/
theorem aux_init_of_marked_nil (st : PageState)
    (h : markedIdxs st.fieldsets = []) : initMultilingualTabs st = st := by
  simp [initMultilingualTabs, h]

/-- The main branch of `initMultilingualTabs`: build, then switch to the
selected (or fallback) tab. -/
theorem aux_init_of_marked (st : PageState) (h : markedIdxs st.fieldsets ≠ []) :
    initMultilingualTabs st
      = switchToTab
          (if ((buildTabs st).headers.filter
              (fun hd => hd.lang == getSelectedTab st.store)).isEmpty
            then "en" else getSelectedTab st.store)
          (buildTabs st) := by
  unfold initMultilingualTabs
  rw [if_neg h]

/-! ### Claim C2: the en fallback can still leave zero tabs active -/

/-- A page with a single `mk` field group and `'fr'` persisted. -/
def pageOnlyMk : PageState :=
  ⟨[⟨["lang-tab", "lang-mk"], [⟨true, false, 3⟩], false⟩], [], [], false, some "fr"⟩

/-- C2 counterexample: on a page whose only marked group is `mk`, with a
persisted code (`'fr'`) matching no rendered header, `initMultilingualTabs`
terminates with a rendered header strip but zero active headers and zero
active panels — refuting "never terminates with zero headers/panels
marked active". -/
theorem init_zero_active_counterexample :
    markedIdxs pageOnlyMk.fieldsets ≠ [] ∧
    ((buildTabs pageOnlyMk).headers.filter
      (fun hd => hd.lang == getSelectedTab pageOnlyMk.store)) = [] ∧
    (initMultilingualTabs pageOnlyMk).headers ≠ [] ∧
    (initMultilingualTabs pageOnlyMk).headers.countP (fun h => h.active) = 0 ∧
    (initMultilingualTabs pageOnlyMk).panels.countP (fun p => p.active) = 0 := by
  decide

/-- C2 (amended): when the persisted selection matches no rendered header,
`initMultilingualTabs` falls back to switching to `'en'`: every header and
panel ends active exactly when its language is `'en'` — so the `en` tab is
activated when an `en` header exists, and zero tabs stay active when it
does not. -/
theorem init_fallback_en (st : PageState)
    (hm : markedIdxs st.fieldsets ≠ [])
    (hsel : ((buildTabs st).headers.filter
      (fun hd => hd.lang == getSelectedTab st.store)) = []) :
    initMultilingualTabs st = switchToTab "en" (buildTabs st) ∧
    (∀ h ∈ (initMultilingualTabs st).headers, h.active = (h.lang == "en")) ∧
    (∀ p ∈ (initMultilingualTabs st).panels, p.active = (p.lang == "en")) := by
  have h1 : initMultilingualTabs st = switchToTab "en" (buildTabs st) := by
    rw [aux_init_of_marked st hm, hsel]
    simp
  refine ⟨h1, ?_, ?_⟩
  · intro h hmem
    rw [h1, aux_switchToTab_headers] at hmem
    obtain ⟨h0, _, rfl⟩ := List.mem_map.mp hmem
    rfl
  · intro p pmem
    rw [h1, aux_switchToTab_panels] at pmem
    obtain ⟨p0, _, rfl⟩ := List.mem_map.mp pmem
    rfl

/-- A page with a single `en` field group and `'de'` persisted. -/
def pageOnlyEn : PageState :=
  ⟨[⟨["lang-tab", "lang-en"], [⟨true, false, 4⟩], false⟩], [], [], false, some "de"⟩

/-- C2 witness: with an `en` group present and an unmatched persisted
code, the fallback activates the `en` tab. -/
theorem init_fallback_en_witness :
    initMultilingualTabs pageOnlyEn = switchToTab "en" (buildTabs pageOnlyEn) ∧
    (∀ h ∈ (initMultilingualTabs pageOnlyEn).headers, h.active = (h.lang == "en")) ∧
    (∀ p ∈ (initMultilingualTabs pageOnlyEn).panels, p.active = (p.lang == "en")) :=
  init_fallback_en pageOnlyEn (by decide) (by decide)

/-! ### Claim C3: one header and one panel per populated language -/

/-- C3: on a fresh page each of whose marked field groups carries a known
language class, after `initMultilingualTabs` the headers and the panels
carry exactly the known languages with at least one matching group (once
each, in configuration order), no header or panel exists for a language
with no group, and every marked field group is hidden yet still present in
the document with its classes intact. -/
theorem init_builds_one_tab_per_language (st : PageState)
    (hh0 : st.headers = []) (hp0 : st.panels = [])
    (hknown : ∀ i ∈ markedIdxs st.fieldsets,
      ∃ c ∈ (st.fieldsets.getD i default).classes,
        (classMatches "en" c = true ∨ classMatches "mk" c = true)) :
    ((initMultilingualTabs st).headers.map Header.lang
      = ["en", "mk"].filter (fun c => !(langGroup st.fieldsets c).isEmpty)) ∧
    ((initMultilingualTabs st).panels.map Panel.lang
      = ["en", "mk"].filter (fun c => !(langGroup st.fieldsets c).isEmpty)) ∧
    ((initMultilingualTabs st).headers.map Header.lang).Nodup ∧
    (initMultilingualTabs st).fieldsets.length = st.fieldsets.length ∧
    (∀ i ∈ markedIdxs st.fieldsets,
      ((initMultilingualTabs st).fieldsets.getD i default).hidden = true ∧
      ((initMultilingualTabs st).fieldsets.getD i default).classes
        = (st.fieldsets.getD i default).classes) := by
  by_cases hm : markedIdxs st.fieldsets = []
  · have hge : langGroup st.fieldsets "en" = [] :=
      aux_langGroup_of_marked_nil _ _ hm
    have hgk : langGroup st.fieldsets "mk" = [] :=
      aux_langGroup_of_marked_nil _ _ hm
    rw [aux_init_of_marked_nil st hm]
    refine ⟨?_, ?_, ?_, rfl, ?_⟩
    · rw [hh0]
      simp [hge, hgk, List.filter_cons]
    · rw [hp0]
      simp [hge, hgk, List.filter_cons]
    · rw [hh0]
      simp
    · intro i hi
      rw [hm] at hi
      exact absurd hi (List.not_mem_nil i)
  · rw [aux_init_of_marked st hm]
    refine ⟨?_, ?_, ?_, ?_, ?_⟩
    · rw [aux_switchToTab_header_langs, aux_buildTabs_headers, aux_buildHeaders_langs]
    · rw [aux_switchToTab_panel_langs, aux_buildTabs_panels, aux_buildPanels_langs]
      by_cases he : langGroup st.fieldsets "en" = [] <;>
        by_cases hk : langGroup st.fieldsets "mk" = [] <;>
          simp [he, hk, List.filter_cons, List.isEmpty_iff]
    · rw [aux_switchToTab_header_langs, aux_buildTabs_headers, aux_buildHeaders_langs]
      exact List.Nodup.filter _ (by decide)
    · rw [aux_switchToTab_fieldsets, aux_buildTabs_fieldsets, aux_buildPanels_length]
    · intro i hi
      have hlt : i < st.fieldsets.length := aux_markedIdxs_lt _ i hi
      obtain ⟨c, hc, hmatch⟩ := hknown i hi
      refine ⟨?_, ?_⟩
      · rw [aux_switchToTab_fieldsets, aux_buildTabs_fieldsets]
        rcases hmatch with hen | hmk
        · exact aux_buildPanels_hidden_mem _ _ i default "en"
            (langGroup st.fieldsets "en") (List.mem_cons_self _ _)
            (aux_langGroup_intro _ _ i hi c hc hen) hlt
        · exact aux_buildPanels_hidden_mem _ _ i default "mk"
            (langGroup st.fieldsets "mk")
            (List.mem_cons_of_mem _ (List.mem_cons_self _ _))
            (aux_langGroup_intro _ _ i hi c hc hmk) hlt
      · rw [aux_switchToTab_fieldsets, aux_buildTabs_fieldsets, aux_buildPanels_classes]

/-- The spec's three-group scenario: two `en` groups, one `mk` group. -/
def pageThree : PageState :=
  ⟨[⟨["lang-tab", "lang-en"], [⟨true, false, 1⟩], false⟩,
    ⟨["lang-tab", "lang-en"], [⟨false, false, 2⟩], false⟩,
    ⟨["lang-tab", "lang-mk"], [⟨true, false, 3⟩], false⟩], [], [], false, none⟩

/-- C3 witness: the three-group scenario page. -/
theorem init_builds_one_tab_per_language_witness :
    ((initMultilingualTabs pageThree).headers.map Header.lang
      = ["en", "mk"].filter (fun c => !(langGroup pageThree.fieldsets c).isEmpty)) ∧
    ((initMultilingualTabs pageThree).panels.map Panel.lang
      = ["en", "mk"].filter (fun c => !(langGroup pageThree.fieldsets c).isEmpty)) ∧
    ((initMultilingualTabs pageThree).headers.map Header.lang).Nodup ∧
    (initMultilingualTabs pageThree).fieldsets.length
      = pageThree.fieldsets.length ∧
    (∀ i ∈ markedIdxs pageThree.fieldsets,
      ((initMultilingualTabs pageThree).fieldsets.getD i default).hidden = true ∧
      ((initMultilingualTabs pageThree).fieldsets.getD i default).classes
        = (pageThree.fieldsets.getD i default).classes) :=
  init_builds_one_tab_per_language pageThree rfl rfl (by decide)

/-! ### Claim C9: unknown-language groups are left fully untouched -/

/-- C9: when at least one known language group is populated, a marked
field group none of whose classes matches a known language code is left
fully untouched by `initMultilingualTabs` — same content, still not
hidden — while the header strip is built alongside it. -/
theorem init_leaves_unknown_group_alone (st : PageState) (i : Nat)
    (hi : i < st.fieldsets.length)
    (hmark : isMarked (st.fieldsets.getD i default) = true)
    (hsome : langGroup st.fieldsets "en" ≠ [] ∨ langGroup st.fieldsets "mk" ≠ [])
    (hun : ∀ c ∈ (st.fieldsets.getD i default).classes,
      classMatches "en" c = false ∧ classMatches "mk" c = false) :
    (initMultilingualTabs st).fieldsets.getD i default
      = st.fieldsets.getD i default ∧
    (initMultilingualTabs st).headers ≠ [] := by
  have hm : markedIdxs st.fieldsets ≠ [] := by
    rcases hsome with h | h
    · exact aux_langGroup_marked _ _ h
    · exact aux_langGroup_marked _ _ h
  rw [aux_init_of_marked st hm]
  constructor
  · rw [aux_switchToTab_fieldsets, aux_buildTabs_fieldsets]
    apply aux_buildPanels_untouched
    intro code idxs hg hmem
    have hgl : idxs = langGroup st.fieldsets "en" ∨
        idxs = langGroup st.fieldsets "mk" := by
      rcases List.mem_cons.mp hg with heq | hg2
      · exact Or.inl (congrArg Prod.snd heq)
      · rcases List.mem_cons.mp hg2 with heq | h3
        · exact Or.inr (congrArg Prod.snd heq)
        · exact absurd h3 (List.not_mem_nil _)
    rcases hgl with hidx | hidx
    · rw [hidx] at hmem
      obtain ⟨_, c, hc, hmatch⟩ := aux_mem_langGroup _ _ i hmem
      simp [(hun c hc).1] at hmatch
    · rw [hidx] at hmem
      obtain ⟨_, c, hc, hmatch⟩ := aux_mem_langGroup _ _ i hmem
      simp [(hun c hc).2] at hmatch
  · rw [aux_switchToTab_headers, aux_buildTabs_headers]
    intro hnil
    exact aux_buildHeaders_ne_nil _ hsome (List.map_eq_nil.mp hnil)

/-- A page with one `en` group and one marked group tagged only with the
unknown code `fr`. -/
def pageWithFr : PageState :=
  ⟨[⟨["lang-tab", "lang-en"], [⟨true, false, 1⟩], false⟩,
    ⟨["lang-tab", "lang-fr"], [⟨false, false, 7⟩], false⟩], [], [], false, none⟩

/-- C9 witness: the `lang-fr` group keeps its content and stays visible
while tabs are built for the `en` group. -/
theorem init_leaves_unknown_group_alone_witness :
    (initMultilingualTabs pageWithFr).fieldsets.getD 1 default
      = pageWithFr.fieldsets.getD 1 default ∧
    (initMultilingualTabs pageWithFr).headers ≠ [] :=
  init_leaves_unknown_group_alone pageWithFr 1 (by decide) (by decide)
    (by decide) (by decide)

end Multilang
